import Mathlib

/-!
Verification of the image2excel image-to-grid transformation engine.

The development shallowly embeds the core of `src/image_converter.py`
(class `Converter`) and the counting loop of `src/image2excel.py`
(`Application.run`).  Pure arithmetic (resize planning, channel mapping)
becomes Lean functions over ℕ/ℤ/ℚ; the stateful worksheet-writing loops
become functions returning explicit lists of effects (cell writes,
getpixel calls, row-height settings, conditional-formatting rules);
the per-file exception flow of `process_file` becomes a function from a
load outcome to either a returned value or a propagated exception.
-/

namespace Image2Excel

/-- An RGB pixel value, the (r, g, b) tuple returned by `image.getpixel`. -/
structure RGB where
  red : ℕ
  green : ℕ
  blue : ℕ
  deriving Repr, DecidableEq

/-- Python tuple indexing `pixel_rgb[rgb_index]`; in the code the index is
always `col % 3`, so only 0, 1, 2 occur. -/
def RGB.channel (p : RGB) : ℕ → ℕ
  | 0 => p.red
  | 1 => p.green
  | _ => p.blue

/-- A decoded (and possibly resized) image: width, height, and the
`getpixel` accessor mapping an (x, y) coordinate to its RGB triple. -/
structure Img where
  width : ℕ
  height : ℕ
  getpixel : ℕ × ℕ → RGB

/-- The settings map (the fields of `config` the converter reads). -/
structure Config where
  output_width : ℚ
  output_height : ℚ
  output_zoom : ℚ
  output_col_width : ℚ
  output_row_height : ℚ
  enlarge : Bool
  deriving Repr, DecidableEq

/-- One worksheet cell write from `wksheet.cell(column = .., row = ..)`:
the 1-indexed sheet column and row, and the numeric value assigned. -/
structure CellWrite where
  col : ℕ
  row : ℕ
  value : ℕ
  deriving Repr, DecidableEq

/-- `pixel_x = col // 3` (image_converter.py line 123): three sheet
columns per pixel column. -/
def pixel_x (col : ℕ) : ℕ := col / 3

/-- `rgb_index = col % 3` (image_converter.py line 124): R, G, B. -/
def rgb_index (col : ℕ) : ℕ := col % 3

/-- Modelled from the spec: the Channel Mapper inverse direction of
section 4.2, `column(px, ch) = px*3 + ch`.  The code has no named
function for it; the mapping is implicit in the grid layout written by
`populate_cell_values`. -/
def gridColumn (px ch : ℕ) : ℕ := px * 3 + ch

/-- The inner column loop of `Converter.populate_cell_values`
(image_converter.py lines 121-130), threading the `pixel_rgb` state
through the listed columns in order.  Returns the cell writes performed
and the coordinates passed to `image.getpixel`, each in program order. -/
def populateCols (image : Img) (row : ℕ) (pixel_rgb : RGB) :
    List ℕ → List CellWrite × List (ℕ × ℕ)
  | [] => ([], [])
  | col :: rest =>
    let px := pixel_x col
    let ch := rgb_index col
    let (rgb2, newCalls) :=
      if ch = 0 then (image.getpixel (px, row), [(px, row)]) else (pixel_rgb, [])
    let (ws, cs) := populateCols image row rgb2 rest
    (⟨col + 1, row + 1, rgb2.channel ch⟩ :: ws, newCalls ++ cs)

/-- The outer row loop of `Converter.populate_cell_values`
(image_converter.py lines 116-130).  For each row it first sets
`wksheet.row_dimensions[row + 1].height = config["output_row_height"]`
(recorded in the third component) and then runs the column loop with
`pixel_rgb` reset to (0,0,0). -/
def populateRows (cfg : Config) (image : Img) (numCols : ℕ) :
    List ℕ → List CellWrite × List (ℕ × ℕ) × List (ℕ × ℚ)
  | [] => ([], [], [])
  | row :: rest =>
    let (ws, cs) := populateCols image row ⟨0, 0, 0⟩ (List.range numCols)
    let (ws2, cs2, hs2) := populateRows cfg image numCols rest
    (ws ++ ws2, cs ++ cs2, (row + 1, cfg.output_row_height) :: hs2)

/-- `Converter.populate_cell_values` (image_converter.py lines 106-130),
with `self.sheet_info.num_sheet_cols` and `num_sheet_rows` passed
explicitly.  Returns (cell writes, getpixel calls, per-row height
settings as (1-indexed row, height) pairs). -/
def populate_cell_values (cfg : Config) (image : Img)
    (num_sheet_cols num_sheet_rows : ℕ) :
    List CellWrite × List (ℕ × ℕ) × List (ℕ × ℚ) :=
  populateRows cfg image num_sheet_cols (List.range num_sheet_rows)

/-- The attributes of one openpyxl `ColorScaleRule` as constructed in
`Converter.apply_color_rules` (image_converter.py lines 142-144). -/
structure ColorScaleRule where
  start_type : String
  start_value : ℕ
  end_type : String
  end_value : ℕ
  start_color : String
  end_color : String
  deriving Repr, DecidableEq

/-- One conditional-formatting range string `F"{letter}1:{letter}{rows}"`
(image_converter.py line 153), represented structurally: the 1-indexed
sheet column that `letter` encodes, the start row (always 1 in the code)
and the end row (`num_sheet_rows`). -/
structure CellRange where
  col : ℕ
  startRow : ℕ
  endRow : ℕ
  deriving Repr, DecidableEq

/-- The range-building loop of `Converter.apply_color_rules`
(image_converter.py lines 149-153): starting from
`cell_ranges = [ [], [], [] ]`, each column appends its single-column
range to the bucket `cell_ranges[col % 3]`. -/
def buildCellRanges (numCols numRows : ℕ) :
    List CellRange × List CellRange × List CellRange :=
  (List.range numCols).foldl
    (fun acc col =>
      let rng : CellRange := ⟨col + 1, 1, numRows⟩
      match col % 3 with
      | 0 => (acc.1 ++ [rng], acc.2.1, acc.2.2)
      | 1 => (acc.1, acc.2.1 ++ [rng], acc.2.2)
      | _ => (acc.1, acc.2.1, acc.2.2 ++ [rng]))
    ([], [], [])

/-- `Converter.apply_color_rules` (image_converter.py lines 133-157).
Returns, in order, the three `wksheet.conditional_formatting.add` calls:
each is the list of ranges whose join is passed as the selector string,
paired with the rule object bound to it.  The loop
`for index in range(3)` performs all three adds unconditionally. -/
def apply_color_rules (numCols numRows : ℕ) :
    List (List CellRange × ColorScaleRule) :=
  let mkRule : String → ColorScaleRule :=
    fun ec => ⟨"num", 0, "num", 255, "00000000", ec⟩
  let cr := buildCellRanges numCols numRows
  [(cr.1, mkRule "00FF0000"), (cr.2.1, mkRule "0000FF00"),
   (cr.2.2, mkRule "000000FF")]

/-- The `wksheet.sheet_format` fields set by
`Converter.intialize_image_sheet` (image_converter.py lines 87-92). -/
structure SheetFormat where
  defaultColWidth : ℚ
  defaultRowHeight : ℚ
  customHeight : Bool
  zeroHeight : Bool
  deriving Repr, DecidableEq

/-- `Converter.intialize_image_sheet` (image_converter.py lines 82-103),
restricted to the sheet-format sizing effects the claims are about:
the global default column width and row height from settings. -/
def intialize_image_sheet (cfg : Config) : SheetFormat :=
  ⟨cfg.output_col_width, cfg.output_row_height, true, true⟩

/-- Python 3 `round` on an exact rational: round-half-to-even. -/
def pyRound (q : ℚ) : ℤ :=
  if q - ⌊q⌋ = 1 / 2 then (if 2 ∣ ⌊q⌋ then ⌊q⌋ else ⌊q⌋ + 1) else round q

/-- `Converter.calc_resize_dimensions` (image_converter.py lines 40-60),
with Python floats modelled as exact rationals.  Returns
(new width, new height, factor). -/
def calc_resize_dimensions (width height : ℕ) (output_width output_height : ℚ)
    (allow_enlarge : Bool) : ℤ × ℤ × ℚ :=
  let horz_rescale := output_width / width
  let vert_rescale := output_height / height
  let horz_rescale := if allow_enlarge then horz_rescale else min 1 horz_rescale
  let vert_rescale := if allow_enlarge then vert_rescale else min 1 vert_rescale
  let rescale := min horz_rescale vert_rescale
  (pyRound (width * rescale), pyRound (height * rescale), rescale)

/-- `Image.MAX_IMAGE_PIXELS = 6000 * 4000` (image_converter.py line 222). -/
def MAX_IMAGE_PIXELS : ℕ := 6000 * 4000

/-- Outcome of the loading steps inside the `try` block of
`Converter.process_file` (image_converter.py lines 224-251): either the
resized RGB image, or the exception class raised along the way. -/
inductive LoadOutcome where
  | ok (image : Img)
  | fileNotFound
  | decompressionBomb
  | unidentifiedImage
  | permissionDenied

/-- Modelled from the spec: the external decoder collaborator (spec
section 6) "must reject inputs whose width×height exceeds a configured
pixel ceiling (default ≈24,000,000) before decoding"; the code sets that
ceiling on line 222 and the rejection surfaces as a
`DecompressionBombError` during loading. -/
def load_image (image : Img) : LoadOutcome :=
  if image.width * image.height > MAX_IMAGE_PIXELS then
    LoadOutcome.decompressionBomb
  else
    LoadOutcome.ok image

/-- Exception classes that `Converter.process_file` does not catch. -/
inductive PyExc where
  | unidentifiedImage
  | permissionDenied
  deriving Repr, DecidableEq

/-- Result of one `Converter.process_file` call: either the call returns
(carrying its Python return value, whether a `Workbook()` was created,
and the grid cell writes performed), or an exception propagates out. -/
inductive ProcessOutcome where
  | returned (value : Option Unit) (workbookCreated : Bool)
      (gridWrites : List CellWrite)
  | raised (exc : PyExc)
  deriving DecidableEq

/-- `Converter.process_file` (image_converter.py lines 217-286).  The
`try` block catches exactly `FileNotFoundError` and
`Image.DecompressionBombError`, printing a message and returning (the
implicit Python `None`, modelled as `none`) with no workbook created;
any other exception propagates.  On the success path it sets
`num_sheet_cols = image.width * 3` and `num_sheet_rows = image.height`,
creates the workbook, populates the cells, and falls off the end of the
function, again returning `None`. -/
def process_file (cfg : Config) (outcome : LoadOutcome) : ProcessOutcome :=
  match outcome with
  | .ok image =>
    let num_sheet_cols := image.width * 3
    let num_sheet_rows := image.height
    let (writes, _, _) := populate_cell_values cfg image num_sheet_cols num_sheet_rows
    .returned none true writes
  | .fileNotFound => .returned none false []
  | .decompressionBomb => .returned none false []
  | .unidentifiedImage => .raised .unidentifiedImage
  | .permissionDenied => .raised .permissionDenied

/-- Python truthiness of the value returned by `process_file`. -/
def isTruthy : Option Unit → Bool
  | none => false
  | some _ => true

/-- The per-file loop of `Application.run` (image2excel.py lines
143-157): `num_files_processed` is incremented only when
`converter.process_file()` is truthy; an uncaught exception from
`process_file` aborts the loop. -/
def run_loop (cfg : Config) : List LoadOutcome → ℕ → Except PyExc ℕ
  | [], n => .ok n
  | oc :: rest, n =>
    match process_file cfg oc with
    | .raised e => .error e
    | .returned v _ _ => run_loop cfg rest (if isTruthy v then n + 1 else n)

/-- A concrete settings value used by the closed witness statements. -/
def cfgEx : Config := ⟨100, 100, 100, 3, 8, false⟩

/-- A concrete 1×1 LightCoral image (the example of spec section 8). -/
def imgEx : Img := ⟨1, 1, fun _ => ⟨240, 128, 128⟩⟩

/-- A concrete 6000×5000 image, 30 megapixels. -/
def imgBig : Img := ⟨6000, 5000, fun _ => ⟨0, 0, 0⟩⟩

lemma populateCols_range3 (image : Img) (row : ℕ) (rgb : RGB) (k n : ℕ) :
    populateCols image row rgb (List.range' (3 * k) (3 * n)) =
      ((List.range' k n).flatMap fun p =>
        [⟨3 * p + 1, row + 1, (image.getpixel (p, row)).red⟩,
         ⟨3 * p + 2, row + 1, (image.getpixel (p, row)).green⟩,
         ⟨3 * p + 3, row + 1, (image.getpixel (p, row)).blue⟩],
       (List.range' k n).map fun p => (p, row)) := by
  induction n generalizing k rgb with
  | zero => simp [populateCols]
  | succ n ih =>
    have e1 : 3 * (n + 1) = 3 * n + 1 + 1 + 1 := by ring
    have e2 : 3 * k + 1 + 1 + 1 = 3 * (k + 1) := by ring
    have hx0 : rgb_index (3 * k) = 0 := by unfold rgb_index; omega
    have hx1 : rgb_index (3 * k + 1) = 1 := by unfold rgb_index; omega
    have hx2 : rgb_index (3 * k + 1 + 1) = 2 := by unfold rgb_index; omega
    have hp0 : pixel_x (3 * k) = k := by unfold pixel_x; omega
    have hp1 : pixel_x (3 * k + 1) = k := by unfold pixel_x; omega
    have hp2 : pixel_x (3 * k + 1 + 1) = k := by unfold pixel_x; omega
    rw [e1, List.range'_succ, List.range'_succ, List.range'_succ, e2]
    simp only [populateCols, hx0, hx1, hx2, hp0, hp1, hp2]
    simp [RGB.channel, List.range'_succ, ih]

lemma populateCols_spec (image : Img) (row W : ℕ) :
    populateCols image row ⟨0, 0, 0⟩ (List.range (3 * W)) =
      ((List.range W).flatMap fun p =>
        [⟨3 * p + 1, row + 1, (image.getpixel (p, row)).red⟩,
         ⟨3 * p + 2, row + 1, (image.getpixel (p, row)).green⟩,
         ⟨3 * p + 3, row + 1, (image.getpixel (p, row)).blue⟩],
       (List.range W).map fun p => (p, row)) := by
  have h := populateCols_range3 image row ⟨0, 0, 0⟩ 0 W
  simpa [List.range_eq_range'] using h

lemma populateRows_spec (cfg : Config) (image : Img) (W : ℕ) (rows : List ℕ) :
    populateRows cfg image (3 * W) rows =
      (rows.flatMap fun r => (List.range W).flatMap fun p =>
        [⟨3 * p + 1, r + 1, (image.getpixel (p, r)).red⟩,
         ⟨3 * p + 2, r + 1, (image.getpixel (p, r)).green⟩,
         ⟨3 * p + 3, r + 1, (image.getpixel (p, r)).blue⟩],
       rows.flatMap fun r => (List.range W).map fun p => (p, r),
       rows.map fun r => (r + 1, cfg.output_row_height)) := by
  induction rows with
  | nil => simp [populateRows]
  | cons r rest ih => simp [populateRows, populateCols_spec, ih]

lemma populateRows_heights (cfg : Config) (image : Img) (numCols : ℕ) (rows : List ℕ) :
    (populateRows cfg image numCols rows).2.2 =
      rows.map fun r => (r + 1, cfg.output_row_height) := by
  induction rows with
  | nil => simp [populateRows]
  | cons r rest ih => simp [populateRows, ih]

lemma count_mk_map_range (W p r : ℕ) (hp : p < W) :
    ((List.range W).map fun pp => (pp, r)).count (p, r) = 1 := by
  induction W with
  | zero => omega
  | succ W ih =>
    rw [List.range_succ, List.map_append, List.count_append]
    simp only [List.map_cons, List.map_nil]
    rcases Nat.lt_succ_iff_lt_or_eq.mp hp with h | h
    · rw [ih h]
      have hnot : (p, r) ∉ [(W, r)] := by
        simp only [List.mem_singleton, Prod.mk.injEq, not_and]
        intro hc
        omega
      rw [List.count_eq_zero.mpr hnot]
    · subst h
      have hnot : (p, r) ∉ (List.range p).map fun pp => (pp, r) := by
        simp only [List.mem_map, List.mem_range, Prod.mk.injEq, not_exists]
        rintro x ⟨hx, he1, he2⟩
        omega
      rw [List.count_eq_zero.mpr hnot]
      simp

lemma count_pixel_calls (W H p r : ℕ) (hp : p < W) (hr : r < H) :
    (((List.range H).flatMap fun rr => (List.range W).map fun pp => (pp, rr)).count (p, r)) = 1 := by
  induction H with
  | zero => omega
  | succ H ih =>
    rw [List.range_succ, List.flatMap_append, List.count_append]
    simp only [List.flatMap_cons, List.flatMap_nil, List.append_nil]
    rcases Nat.lt_succ_iff_lt_or_eq.mp hr with h | h
    · rw [ih h]
      have hnot : (p, r) ∉ (List.range W).map fun pp => (pp, H) := by
        simp only [List.mem_map, List.mem_range, Prod.mk.injEq, not_exists]
        rintro x ⟨hx, he1, he2⟩
        omega
      rw [List.count_eq_zero.mpr hnot]
    · subst h
      have hzero : (p, r) ∉ (List.range r).flatMap fun rr => (List.range W).map fun pp => (pp, rr) := by
        simp only [List.mem_flatMap, List.mem_map, List.mem_range, Prod.mk.injEq, not_exists]
        rintro x ⟨hx, y, hy, he1, he2⟩
        omega
      rw [List.count_eq_zero.mpr hzero, Nat.zero_add]
      exact count_mk_map_range W p r hp

lemma pyRound_nonneg (q : ℚ) (hq : 0 ≤ q) : 0 ≤ pyRound q := by
  unfold pyRound
  split
  · rename_i h
    have h1 : (-1 : ℚ) < ⌊q⌋ := by
      have := Int.floor_le q
      linarith
    have h2 : (-1 : ℤ) < ⌊q⌋ := by exact_mod_cast h1
    split <;> omega
  · rw [round_eq, Int.le_floor]
    push_cast
    linarith

lemma pyRound_le (q : ℚ) (z : ℤ) (hq : q ≤ z) : pyRound q ≤ z := by
  unfold pyRound
  split
  · rename_i h
    have hfq : (⌊q⌋ : ℚ) = q - 1 / 2 := by linarith
    have h2 : (⌊q⌋ : ℚ) < z := by
      rw [hfq]
      linarith
    have h3 : ⌊q⌋ < z := by exact_mod_cast h2
    split <;> omega
  · rw [round_eq]
    have h4 : ⌊q + 1 / 2⌋ < z + 1 := by
      rw [Int.floor_lt]
      push_cast
      linarith
    omega

/-- C1: for an already-resized RGB image of width W and height H, the grid
population loop writes exactly the cells of the (3W columns × H rows)
grid — the cell at 0-indexed grid column p*3+ch (sheet column p*3+ch+1)
of row r holds channel ch of pixel (p, r), in the fixed order red, green,
blue — and `image.getpixel` is called exactly once per pixel. -/
theorem grid_population_exact (cfg : Config) (image : Img) :
    (populate_cell_values cfg image (image.width * 3) image.height).1 =
      ((List.range image.height).flatMap fun r =>
        (List.range image.width).flatMap fun p =>
          [⟨p * 3 + 1, r + 1, (image.getpixel (p, r)).red⟩,
           ⟨p * 3 + 2, r + 1, (image.getpixel (p, r)).green⟩,
           ⟨p * 3 + 3, r + 1, (image.getpixel (p, r)).blue⟩])
    ∧ (populate_cell_values cfg image (image.width * 3) image.height).2.1 =
      ((List.range image.height).flatMap fun r =>
        (List.range image.width).map fun p => (p, r))
    ∧ (∀ p r, p < image.width → r < image.height →
        ((populate_cell_values cfg image (image.width * 3) image.height).2.1.count (p, r)) = 1) := by
  have hc : image.width * 3 = 3 * image.width := Nat.mul_comm _ _
  unfold populate_cell_values
  rw [hc, populateRows_spec]
  refine ⟨?_, rfl, ?_⟩
  · simp [Nat.mul_comm]
  · intro p r hp hr
    exact count_pixel_calls image.width image.height p r hp hr

theorem grid_population_exact_witness :
    (0 < imgEx.width ∧ 0 < imgEx.height) ∧
    ((populate_cell_values cfgEx imgEx (imgEx.width * 3) imgEx.height).2.1.count (0, 0)) = 1 :=
  ⟨⟨by decide, by decide⟩, (grid_population_exact cfgEx imgEx).2.2 0 0 (by decide) (by decide)⟩

/-- C2: for every grid column c with c < 3W, the channel mapping
pixel_x(c) = c div 3, rgb_index(c) = c mod 3 round-trips through the
inverse mapping gridColumn(px, ch) = px*3 + ch, and the channel order is
fixed as Red = 0, Green = 1, Blue = 2. -/
theorem channel_mapping_round_trip (W c : ℕ) (h : c < 3 * W) :
    gridColumn (pixel_x c) (rgb_index c) = c ∧
    (∀ p : RGB, p.channel 0 = p.red ∧ p.channel 1 = p.green ∧ p.channel 2 = p.blue) := by
  constructor
  · unfold gridColumn pixel_x rgb_index
    omega
  · intro p
    exact ⟨rfl, rfl, rfl⟩

theorem channel_mapping_round_trip_witness :
    5 < 3 * 2 ∧ gridColumn (pixel_x 5) (rgb_index 5) = 5 :=
  ⟨by decide, (channel_mapping_round_trip 2 5 (by decide)).1⟩

/-- C3: for a grid of width 9 columns, the rule generator assigns
channel 0 exactly the 1-indexed columns 1, 4, 7; channel 1 exactly
2, 5, 8; channel 2 exactly 3, 6, 9 — each channel one rule bound to
exactly three single-column ranges spanning rows 1 through the full row
count H. -/
theorem gradient_rules_width9 (H : ℕ) :
    apply_color_rules 9 H =
      [([⟨1, 1, H⟩, ⟨4, 1, H⟩, ⟨7, 1, H⟩],
        ⟨"num", 0, "num", 255, "00000000", "00FF0000"⟩),
       ([⟨2, 1, H⟩, ⟨5, 1, H⟩, ⟨8, 1, H⟩],
        ⟨"num", 0, "num", 255, "00000000", "0000FF00"⟩),
       ([⟨3, 1, H⟩, ⟨6, 1, H⟩, ⟨9, 1, H⟩],
        ⟨"num", 0, "num", 255, "00000000", "000000FF"⟩)] := rfl

/-- C4 counterexample: at grid width 2 (< 3) channel 2 has zero matching
columns, yet `apply_color_rules` still performs all three
`conditional_formatting.add` calls: the blue rule is emitted bound to an
empty range selector instead of being omitted or skipped. -/
theorem empty_channel_rule_not_skipped :
    (apply_color_rules 2 5).length = 3 ∧
    (apply_color_rules 2 5).getLast? =
      some ([], ⟨"num", 0, "num", 255, "00000000", "000000FF"⟩) :=
  ⟨rfl, rfl⟩

/-- C4 amended: when the grid width is less than 3, the rule generation
still emits all three rules unconditionally; the channel with zero
matching columns is bound to an empty range selector (the join of an
empty list), not omitted. -/
theorem empty_channel_rule_emitted (numCols numRows : ℕ) (h : numCols < 3) :
    (apply_color_rules numCols numRows).length = 3 ∧
    (apply_color_rules numCols numRows).getLast? =
      some ([], ⟨"num", 0, "num", 255, "00000000", "000000FF"⟩) := by
  interval_cases numCols <;> exact ⟨rfl, rfl⟩

theorem empty_channel_rule_emitted_witness :
    2 < 3 ∧ (apply_color_rules 2 7).length = 3 :=
  ⟨by decide, (empty_channel_rule_emitted 2 7 (by decide)).1⟩

/-- C5 counterexample: for a 100×1 source image and desired output 1×1
with enlarging off, the code returns dimensions (1, 0) — the height is
rounded to 0 and is not clamped to a minimum of 1. -/
theorem resize_dimension_zero :
    calc_resize_dimensions 100 1 1 1 false = (1, 0, 1 / 100) := by
  norm_num [calc_resize_dimensions, pyRound, round_eq]

/-- C5 amended: the resize computation returns
targetWidth = pyRound(width × scaleFactor) and
targetHeight = pyRound(height × scaleFactor) with the one consistent
rounding rule (round-half-to-even, Python 3 round), and for nonnegative
desired dimensions both results and the scale factor are nonnegative;
the results are not clamped to a minimum of 1 and can be 0. -/
theorem resize_rounding_consistent (w h : ℕ) (ow oh : ℚ) (allow : Bool)
    (how : 0 ≤ ow) (hoh : 0 ≤ oh) :
    (calc_resize_dimensions w h ow oh allow).1 =
      pyRound (w * (calc_resize_dimensions w h ow oh allow).2.2) ∧
    (calc_resize_dimensions w h ow oh allow).2.1 =
      pyRound (h * (calc_resize_dimensions w h ow oh allow).2.2) ∧
    0 ≤ (calc_resize_dimensions w h ow oh allow).2.2 ∧
    0 ≤ (calc_resize_dimensions w h ow oh allow).1 ∧
    0 ≤ (calc_resize_dimensions w h ow oh allow).2.1 := by
  have hsc : 0 ≤ (calc_resize_dimensions w h ow oh allow).2.2 := by
    unfold calc_resize_dimensions
    have h1 : (0 : ℚ) ≤ ow / w := div_nonneg how (Nat.cast_nonneg w)
    have h2 : (0 : ℚ) ≤ oh / h := div_nonneg hoh (Nat.cast_nonneg h)
    cases allow <;> simp <;> constructor <;> positivity
  refine ⟨rfl, rfl, hsc, ?_, ?_⟩
  · exact pyRound_nonneg _ (mul_nonneg (Nat.cast_nonneg w) hsc)
  · exact pyRound_nonneg _ (mul_nonneg (Nat.cast_nonneg h) hsc)

theorem resize_rounding_consistent_witness :
    (0 ≤ (2 : ℚ)) ∧ 0 ≤ (calc_resize_dimensions 4 4 2 2 false).2.2 :=
  ⟨by norm_num, (resize_rounding_consistent 4 4 2 2 false (by norm_num) (by norm_num)).2.2.1⟩

/-- C6: with allow_enlarge = false each per-axis factor is clamped to at
most 1, the returned factor is the minimum of the two clamped per-axis
factors (hence at most 1), and the returned dimensions never exceed the
source dimensions; with allow_enlarge = true they may exceed them (a 1×1
source with desired 2×2 yields 2×2). -/
theorem enlarge_gating (w h : ℕ) (ow oh : ℚ) :
    (calc_resize_dimensions w h ow oh false).2.2 =
      min (min 1 (ow / w)) (min 1 (oh / h)) ∧
    (calc_resize_dimensions w h ow oh false).2.2 ≤ 1 ∧
    (calc_resize_dimensions w h ow oh false).1 ≤ (w : ℤ) ∧
    (calc_resize_dimensions w h ow oh false).2.1 ≤ (h : ℤ) ∧
    calc_resize_dimensions 1 1 2 2 true = (2, 2, 2) := by
  have hval : (calc_resize_dimensions w h ow oh false).2.2 =
      min (min 1 (ow / w)) (min 1 (oh / h)) := rfl
  have hle1 : (calc_resize_dimensions w h ow oh false).2.2 ≤ 1 := by
    rw [hval]
    exact le_trans (min_le_left _ _) (min_le_left _ _)
  refine ⟨hval, hle1, ?_, ?_, ?_⟩
  · apply pyRound_le
    push_cast
    calc (w : ℚ) * (calc_resize_dimensions w h ow oh false).2.2
        ≤ (w : ℚ) * 1 := by
          apply mul_le_mul_of_nonneg_left hle1 (Nat.cast_nonneg w)
      _ = (w : ℚ) := mul_one _
  · apply pyRound_le
    push_cast
    calc (h : ℚ) * (calc_resize_dimensions w h ow oh false).2.2
        ≤ (h : ℚ) * 1 := by
          apply mul_le_mul_of_nonneg_left hle1 (Nat.cast_nonneg h)
      _ = (h : ℚ) := mul_one _
  · norm_num [calc_resize_dimensions, pyRound, round_eq]

/-- C7 counterexample: an unsupported or corrupt image format raises
`UnidentifiedImageError`, which `process_file` does not catch — the
exception propagates past the per-file conversion boundary. -/
theorem input_error_propagates :
    process_file cfgEx LoadOutcome.unidentifiedImage =
      ProcessOutcome.raised PyExc.unidentifiedImage := rfl

/-- C7 amended: `process_file` catches exactly `FileNotFoundError` and
`DecompressionBombError` — for those the file is reported, aborted, and
"not processed" (return value `none`) with no workbook created; any
other input error (unsupported/corrupt format, permission denied)
propagates uncaught past the per-file boundary. -/
theorem input_error_handling (cfg : Config) :
    process_file cfg LoadOutcome.fileNotFound = ProcessOutcome.returned none false [] ∧
    process_file cfg LoadOutcome.decompressionBomb = ProcessOutcome.returned none false [] ∧
    process_file cfg LoadOutcome.unidentifiedImage = ProcessOutcome.raised PyExc.unidentifiedImage ∧
    process_file cfg LoadOutcome.permissionDenied = ProcessOutcome.raised PyExc.permissionDenied :=
  ⟨rfl, rfl, rfl, rfl⟩

/-- C8: an image whose pixel count exceeds the 24,000,000-pixel ceiling
is rejected during loading (the decoder raises, `process_file` catches)
and the call returns "not processed" with no workbook created and no
grid cell written. -/
theorem oversize_rejected (cfg : Config) (image : Img)
    (h : image.width * image.height > MAX_IMAGE_PIXELS) :
    process_file cfg (load_image image) = ProcessOutcome.returned none false [] := by
  unfold load_image
  rw [if_pos h]
  rfl

theorem oversize_rejected_witness :
    imgBig.width * imgBig.height > MAX_IMAGE_PIXELS ∧
    process_file cfgEx (load_image imgBig) = ProcessOutcome.returned none false [] :=
  ⟨by decide, oversize_rejected cfgEx imgBig (by decide)⟩

/-- C9 counterexample: for a 1×1 image the population loop writes an
explicit per-row height override (row 1 set to output_row_height = 8),
so the layout does not rely on the global default alone. -/
theorem per_row_height_written :
    (populate_cell_values cfgEx imgEx 3 1).2.2 = [(1, 8)] ∧
    (populate_cell_values cfgEx imgEx 3 1).2.2 ≠ [] := by
  refine ⟨rfl, ?_⟩
  simp only [show (populate_cell_values cfgEx imgEx 3 1).2.2 = [(1, 8)] from rfl]
  simp

/-- C9 amended: `intialize_image_sheet` sets the global sheet defaults
for column width and row height from settings, but
`populate_cell_values` additionally writes an explicit per-row height
override equal to output_row_height for every grid row. -/
theorem layout_sizing (cfg : Config) (image : Img) :
    (intialize_image_sheet cfg).defaultColWidth = cfg.output_col_width ∧
    (intialize_image_sheet cfg).defaultRowHeight = cfg.output_row_height ∧
    (populate_cell_values cfg image (image.width * 3) image.height).2.2 =
      (List.range image.height).map fun r => (r + 1, cfg.output_row_height) :=
  ⟨rfl, rfl, populateRows_heights cfg image (image.width * 3) (List.range image.height)⟩

/-- C10: `process_file` returns (the Python) `None` on the success path
and on every caught-error path, so its result is never truthy and the
caller count `num_files_processed` stays 0 whenever the run loop
completes. -/
theorem process_file_always_none (cfg : Config) :
    (∀ oc v wb ws, process_file cfg oc = ProcessOutcome.returned v wb ws → v = none) ∧
    (∀ ocs r, run_loop cfg ocs 0 = Except.ok r → r = 0) := by
  have hnone : ∀ oc v wb ws,
      process_file cfg oc = ProcessOutcome.returned v wb ws → v = none := by
    intro oc v wb ws h
    cases oc <;> simp [process_file] at h <;> tauto
  refine ⟨hnone, ?_⟩
  have key : ∀ ocs n r, run_loop cfg ocs n = Except.ok r → r = n := by
    intro ocs
    induction ocs with
    | nil =>
      intro n r h
      simpa [run_loop] using h.symm
    | cons oc rest ih =>
      intro n r h
      unfold run_loop at h
      cases hpf : process_file cfg oc with
      | raised e =>
        rw [hpf] at h
        simp at h
      | returned v wb ws =>
        rw [hpf] at h
        have hv := hnone oc v wb ws hpf
        subst hv
        simpa [isTruthy] using ih n r h
  intro ocs r h
  exact key ocs 0 r h

theorem process_file_always_none_witness :
    run_loop cfgEx [LoadOutcome.fileNotFound] 0 = Except.ok 0 ∧ (0 : ℕ) = 0 :=
  ⟨rfl, (process_file_always_none cfgEx).2 [LoadOutcome.fileNotFound] 0 rfl⟩

end Image2Excel
